import Mathlib

/-!
Shallow embedding of the Genaro committee consensus engine (file
`consensus/genaro/genaro.go` of the GenaroCore repository): header signature
handling, difficulty assignment, header preparation and seal verification,
committee ranking, and the reward / back-stake bookkeeping run in Finalize.

Go `uint64` arithmetic is modelled on `Nat` with explicit reduction modulo
`2 ^ 64` at every operation that can wrap; Go `big.Int` arithmetic is modelled
on `Int`, with `big.Int.Div` rendered as `Int.ediv` (Go documents Euclidean
division with a nonnegative remainder).  External collaborators (chain reader,
ledger state, cryptography, snapshot storage) appear as explicit environment
records passed to each operation.
-/

namespace Genaro

/-- Addresses. `common.BytesToAddress` left-pads a short byte string to
20 bytes and is injective on the distinct short literals appearing in the
source, so the seed strings themselves serve as addresses; the zero value of
`common.Address` is modelled as the empty string. -/
abbrev Address := String

/-- Reduction of a `Nat` to a Go `uint64` value: `uint64` arithmetic wraps
modulo `2 ^ 64`. -/
def u64 (n : Nat) : Nat := n % (2 ^ 64)

/-- Go conversion `int64(x)` applied to a `uint64` value: the low 64 bits are
reinterpreted as a signed integer. -/
def toInt64 (n : Nat) : Int :=
  if u64 n < 2 ^ 63 then (u64 n : Int) else (u64 n : Int) - 2 ^ 64

/-- Go `big.Int.Uint64` as used on header timestamps in `VerifySeal`
(`header.Time.Uint64()`).  For the values arising in practice
(`0 ≤ t < 2 ^ 64`) this is the identity; modelled as the Euclidean remainder
so that the function is total. -/
def timeU64 (t : Int) : Nat := (t % (2 ^ 64)).toNat

/-- Constants from the `const`/`var` blocks of the source (lines 26-49). -/
def epochLength : Nat := 5000

def epochPerYear : Nat := 12

def SurplusCoinAddress : Address := "aaa"

def CoinActualRewardsAddress : Address := "bbb"

def StorageActualRewardsAddress : Address := "ccc"

def Pre : String := "pre"

def TotalActualRewardsAddress : Address := "ggg"

def backStakePeriod : Nat := 2

def coinRewardsRatio : Int := 1250

def storageRewardsRatio : Int := 1250

def ratioPerYear : Int := 700

def base : Int := 10000

/-- Error values of the engine (source lines 51-66 plus the sentinel errors of
the `consensus` package).  `errRecoveryFailed` stands for any error returned by
`crypto.Ecrecover`; `panicNilExtra` marks the nil-pointer dereference that the
Go code performs in `VerifySeal` when `UnmarshalToExtra` returns nil on an
epoch-point header. -/
inductive GErr where
  | errEmptyExtra
  | errUnauthorized
  | errInvalidEpochBlock
  | errInvalidDifficulty
  | errUnknownBlock
  | errFutureBlock
  | errUnknownAncestor
  | errRecoveryFailed
  | panicNilExtra
  deriving DecidableEq, Repr

/-- The fields of `params.GenaroConfig` consulted by the embedded
operations. -/
structure GenaroConfig where
  Epoch : Nat
  CommitteeMaxSize : Nat
  deriving DecidableEq, Repr

/-- The decoded consensus payload of a block header.  In the source it is a
byte string holding a 65-byte signature followed (on epoch blocks) by the
concatenated 20-byte member addresses and their proportions; it is modelled
structurally, with `CommitteeRank` a list of addresses, so that
`len(extraData.CommitteeRank) / common.AddressLength` of the source is
`CommitteeRank.length` here. -/
structure HeaderExtra where
  Signature : List Nat
  CommitteeRank : List Address
  Proportion : List Nat
  deriving DecidableEq, Repr

/-- The header fields read or written by the embedded operations.  `Extra` is
the decoded extension payload, `none` when `UnmarshalToExtra` fails.  `Time`
is the Unix timestamp held in the header's `big.Int` time field. -/
structure Header where
  Number : Nat
  Time : Int
  Difficulty : Nat
  Coinbase : Address
  Nonce : Nat
  MixDigest : Nat
  Extra : Option HeaderExtra
  deriving DecidableEq, Repr

/-- Modelled from the spec: the `CommitteeSnapshot` type is declared outside
the examined source file.  Per spec section 3 it carries the ordered rank list
of member addresses (rank 0 = highest stake) and a mapping from member address
to reward-proportion share. -/
structure CommitteeSnapshot where
  CommitteeRank : List Address
  Committee : Address → Option Nat

/-- Modelled from the spec: the snapshot's committee size attribute, the
number of members of the rank list. -/
def CommitteeSnapshot.CommitteeSize (s : CommitteeSnapshot) : Nat :=
  s.CommitteeRank.length

/-- Modelled from the spec: `snap.getCurrentRankIndex(addr)` is declared
outside the examined source file.  It returns the rank index of `addr` in the
snapshot's rank list, negative when `addr` is not a member (the source tests
`index < 0`). -/
def CommitteeSnapshot.getCurrentRankIndex (s : CommitteeSnapshot)
    (addr : Address) : Int :=
  if addr ∈ s.CommitteeRank then (s.CommitteeRank.indexOf addr : Int) else -1

/-- CalcDifficulty (source lines 269-276): distance between the address's rank
index and the committee size; zero for a non-member.  The `uint64` subtraction
`snap.CommitteeSize - uint64(index)` cannot wrap because the rank index of a
member is always below the rank-list length. -/
def CalcDifficulty (snap : CommitteeSnapshot) (addr : Address)
    (blockNumber : Nat) : Nat :=
  let index := snap.getCurrentRankIndex addr
  if index < 0 then 0
  else snap.CommitteeSize - index.toNat

/-- The cryptographic collaborators of the codec: `sigHash` (keccak over the
listed header fields, source lines 79-101), `crypto.Ecrecover`, and the
public-key-to-address derivation `Keccak256(pubkey[1:])[12:]` (source line
121).  All three are external primitives, passed as oracles. -/
structure CryptoEnv where
  sigHash : Header → List Nat
  ecrecoverFn : List Nat → List Nat → Except GErr (List Nat)
  pubkeyToAddr : List Nat → Address

/-- Modelled from the spec: `ResetHeaderSignature` is declared outside the
examined source file.  Per spec section 4.1 it blanks the signature portion of
the extension payload (the signing hash is computed with the signature
logically cleared), leaving the rest of the header intact. -/
def ResetHeaderSignature (h : Header) : Header :=
  match h.Extra with
  | none => h
  | some e => { h with Extra := some { e with Signature := List.replicate 65 0 } }

/-- Modelled from the spec: `SetHeaderSignature` is declared outside the
examined source file.  Per spec section 4.1 it writes the given signature
bytes into the signature portion of the extension payload, leaving the rest of
the header intact. -/
def SetHeaderSignature (h : Header) (sig : List Nat) : Header :=
  match h.Extra with
  | none => h
  | some e => { h with Extra := some { e with Signature := sig } }

/-- ecrecover (source lines 104-123): extract the signature from the header
extra-data, clear it, hash, recover the signer, restore the signature.  The
result pairs the recovered address (or error) with the header as it stands
when the function returns, so that the transient mutation of the shared header
is visible to the theorems. -/
def ecrecover (env : CryptoEnv) (h : Header) : Except GErr Address × Header :=
  match h.Extra with
  | none => (Except.error GErr.errEmptyExtra, h)
  | some extraData =>
    let signature := extraData.Signature
    let h1 := ResetHeaderSignature h
    let recovered := env.ecrecoverFn (env.sigHash h1) signature
    let h2 := SetHeaderSignature h1 signature
    (match recovered with
     | Except.error e => Except.error e
     | Except.ok pubkey => Except.ok (env.pubkeyToAddr pubkey), h2)

/-- The collaborator results consumed by `Prepare` (source lines 160-202): the
locally authorized signer, the snapshot for the block's governing epoch, the
parent header looked up by `chain.GetHeader(header.ParentHash, number-1)`, and
the wall clock `time.Now().Unix()`. -/
structure PrepareEnv where
  signer : Address
  snap : Except GErr CommitteeSnapshot
  parent : Option Header
  now : Int

/-- Prepare (source lines 160-202): set coinbase and nonce, compute the
difficulty from the snapshot, reset the mix digest, and set the timestamp from
the wall clock, bumping it to `parent.Time + 1` only when the clock reads
strictly below the parent's timestamp. -/
def Prepare (env : PrepareEnv) (header : Header) : Except GErr Header :=
  let h0 := { header with Coinbase := env.signer, Nonce := 0 }
  let number := h0.Number
  match env.snap with
  | Except.error e => Except.error e
  | Except.ok snap =>
    let h1 := { h0 with Difficulty := CalcDifficulty snap env.signer number }
    let h2 := { h1 with MixDigest := 0 }
    match env.parent with
    | none => Except.error GErr.errUnknownAncestor
    | some parent =>
      let h3 := { h2 with Time := env.now }
      let h4 := if h3.Time < parent.Time then { h3 with Time := parent.Time + 1 } else h3
      Except.ok h4

/-- The collaborator results consumed by `VerifySeal` (source lines 356-408):
the local wall clock, the snapshot for the block's governing epoch, the parent
header, the cryptographic oracles used by `ecrecover`, and the snapshot method
`snap.inturn(blockNumber, signer)`, which is declared outside the examined
source file (spec section 4.4 leaves the rotation formula an open question) and
is therefore abstracted as an oracle. -/
structure VerifyEnv where
  now : Int
  snap : Except GErr CommitteeSnapshot
  parent : Option Header
  crypto : CryptoEnv
  inturn : CommitteeSnapshot → Nat → Address → Bool

/-- The epoch-point committee-list check of `VerifySeal` (source lines
366-374).  When `UnmarshalToExtra` returns nil the Go code dereferences the
nil pointer; that crash is modelled by the `panicNilExtra` error. -/
def epochPointCheck (config : GenaroConfig) (header : Header) : Except GErr Unit :=
  match header.Extra with
  | none => Except.error GErr.panicNilExtra
  | some extraData =>
    let committeeSize := extraData.CommitteeRank.length
    if committeeSize = 0 ∨ committeeSize > config.CommitteeMaxSize then
      Except.error GErr.errInvalidEpochBlock
    else Except.ok ()

/-- The tail of `VerifySeal` after the epoch-point check (source lines
375-407): snapshot lookup, signer recovery, committee membership, parent
lookup, timestamp ordering, and the out-of-turn difficulty delay.  The delay
computation mirrors `uint64(time.Duration(bias * uint64(time.Second)))`
followed by `delay / uint64(time.Second)`, with the multiplication wrapping in
`uint64`. -/
def verifySealRest (env : VerifyEnv) (header : Header) : Except GErr Unit :=
  match env.snap with
  | Except.error e => Except.error e
  | Except.ok snap =>
    match (ecrecover env.crypto header).1 with
    | Except.error e => Except.error e
    | Except.ok signer =>
      if (snap.Committee signer).isNone then Except.error GErr.errUnauthorized
      else
        match env.parent with
        | none => Except.error GErr.errUnknownAncestor
        | some parent =>
          if timeU64 header.Time < timeU64 parent.Time then
            Except.error GErr.errUnknownBlock
          else if env.inturn snap header.Number signer then Except.ok ()
          else
            let bias := u64 header.Difficulty
            let delay := u64 (bias * 1000000000)
            if timeU64 parent.Time + delay / 1000000000 > timeU64 header.Time then
              Except.error GErr.errInvalidDifficulty
            else Except.ok ()

/-- VerifySeal (source lines 356-408): reject the genesis block, reject
headers from the future, run the epoch-point committee-list check on
epoch-boundary numbers, then the remaining signature and timing checks. -/
def VerifySeal (config : GenaroConfig) (env : VerifyEnv) (header : Header) :
    Except GErr Unit :=
  let blockNumber := header.Number
  if blockNumber = 0 then Except.error GErr.errUnknownBlock
  else if env.now < header.Time then Except.error GErr.errFutureBlock
  else if blockNumber % config.Epoch = 0 then
    match epochPointCheck config header with
    | Except.error e => Except.error e
    | Except.ok _ => verifySealRest env header
  else verifySealRest env header

/-- A pending stake-withdrawal entry.  The source reads the field
`back.BackBlockNumber`; the requesting address (spec section 3) is carried as
`Staker`. -/
structure BackStake where
  Staker : Address
  BackBlockNumber : Nat
  deriving DecidableEq, Repr

/-- One staking candidate as consumed by `Rank`: signer address and stake
amount (a Go `uint64`). -/
structure CandidateInfo where
  Signer : Address
  Stake : Nat
  deriving DecidableEq, Repr

/-- The slice of external ledger state read and written by the embedded
operations: account balances (`big.Int`, modelled as unbounded `Int`), the
pending back-stake list, the candidate roster, and the per-candidate heft
difference `state.GetHeftLastDiff(addr, blockNumber)` (a `uint64`). -/
structure StateDB where
  balances : Address → Int
  alreadyBackStakeList : List BackStake
  candidates : List Address
  heftLastDiff : Address → Nat → Nat

/-- `state.GetBalance`. -/
def StateDB.getBalance (st : StateDB) (a : Address) : Int := st.balances a

/-- `state.SetBalance`. -/
def StateDB.setBalance (st : StateDB) (a : Address) (v : Int) : StateDB :=
  { st with balances := fun x => if x = a then v else st.balances x }

/-- `state.AddBalance`. -/
def StateDB.addBalance (st : StateDB) (a : Address) (v : Int) : StateDB :=
  { st with balances := fun x => if x = a then st.balances a + v else st.balances x }

/-- `state.SubBalance`. -/
def StateDB.subBalance (st : StateDB) (a : Address) (v : Int) : StateDB :=
  { st with balances := fun x => if x = a then st.balances a - v else st.balances x }

/-- `state.SetAlreadyBackStakeList`. -/
def StateDB.setAlreadyBackStakeList (st : StateDB) (l : List BackStake) : StateDB :=
  { st with alreadyBackStakeList := l }

/-- The running total accumulated by the loop of `Rank` (source lines
425-428): `total += c.Stake` in `uint64`, wrapping at each addition. -/
def rankTotal (candidateInfos : List CandidateInfo) : Nat :=
  candidateInfos.foldl (fun t c => u64 (t + c.Stake)) 0

/-- Rank (source lines 420-438).  `candidateInfos.Apply()` and
`sort.Sort(candidateInfos)` mutate the candidate list in place before the
arithmetic below; both are declared outside the examined source file (spec
section 4.3 steps 1-2, the sort comparator being an open question), so `Rank`
is modelled on the list as it stands after those steps, and the claims, which
quantify over every candidate set, are settled over that list.  When the total
stake is zero the zero-initialized result slices are returned as allocated,
one zero entry per candidate; otherwise each slot receives the signer and the
`uint64` proportion `c.Stake * uint64(base) / total`, whose multiplication
wraps modulo `2 ^ 64`. -/
def Rank (candidateInfos : List CandidateInfo) : List Address × List Nat :=
  let total := rankTotal candidateInfos
  if total = 0 then
    (candidateInfos.map (fun _ => ""), candidateInfos.map (fun _ => 0))
  else
    (candidateInfos.map (fun c => c.Signer),
     candidateInfos.map (fun c => u64 (c.Stake * base.toNat) / total))

/-- updateEpochRewards (source lines 440-453): snapshot the per-epoch actual
reward counters, reset them, and add both into the running total. -/
def updateEpochRewards (st : StateDB) : StateDB :=
  let coinrewards := st.getBalance CoinActualRewardsAddress
  let storagerewards := st.getBalance StorageActualRewardsAddress
  let st1 := st.setBalance (Pre ++ CoinActualRewardsAddress) coinrewards
  let st2 := st1.setBalance (Pre ++ StorageActualRewardsAddress) storagerewards
  let st3 := st2.setBalance CoinActualRewardsAddress 0
  let st4 := st3.setBalance StorageActualRewardsAddress 0
  let st5 := st4.addBalance TotalActualRewardsAddress coinrewards
  st5.addBalance TotalActualRewardsAddress storagerewards

/-- updateEpochYearRewards (source lines 455-462): snapshot the surplus pool,
subtract the accumulated total rewards from it, and reset the total. -/
def updateEpochYearRewards (st : StateDB) : StateDB :=
  let surplusrewards := st.getBalance SurplusCoinAddress
  let st1 := st.setBalance (Pre ++ SurplusCoinAddress) surplusrewards
  let totalRewards := st1.getBalance TotalActualRewardsAddress
  let st2 := st1.subBalance SurplusCoinAddress totalRewards
  st2.setBalance TotalActualRewardsAddress 0

/-- Modelled from the spec: `IsBackStakeBlockNumber` is declared outside the
examined source file.  Per spec section 4.5 a pending entry matures once its
configured maturity offset of `backStakePeriod` epochs has elapsed as of the
current block number. -/
def IsBackStakeBlockNumber (config : GenaroConfig) (backBlockNumber currentNumber : Nat) :
    Bool :=
  backBlockNumber + backStakePeriod * config.Epoch ≤ currentNumber

/-- The removal loop of handleAlreadyBackStakeList (source lines 489-495):
index `i` walks the slice, a matured entry is removed in place by
`append(backlist[:i], backlist[i+1:]...)` followed by `i--`, so the next
iteration examines the element that slid into position `i`.  The loop
therefore keeps, in order, exactly the entries that fail the maturity test,
which the structural recursion below computes. -/
def alreadyBackLoop (config : GenaroConfig) (blockNumber : Nat) :
    List BackStake → List BackStake
  | [] => []
  | back :: rest =>
    if IsBackStakeBlockNumber config back.BackBlockNumber blockNumber then
      alreadyBackLoop config blockNumber rest
    else
      back :: alreadyBackLoop config blockNumber rest

/-- The removal loop of handleApplyBackStakeList (source lines 502-508),
translated from that function's own body; the Go text of the loop coincides
with the one in handleAlreadyBackStakeList. -/
def applyBackLoop (config : GenaroConfig) (blockNumber : Nat) :
    List BackStake → List BackStake
  | [] => []
  | back :: rest =>
    if IsBackStakeBlockNumber config back.BackBlockNumber blockNumber then
      applyBackLoop config blockNumber rest
    else
      back :: applyBackLoop config blockNumber rest

/-- handleAlreadyBackStakeList (source lines 486-497). -/
def handleAlreadyBackStakeList (config : GenaroConfig) (header : Header)
    (st : StateDB) : StateDB :=
  let blockNumber := header.Number
  let backlist := st.alreadyBackStakeList
  st.setAlreadyBackStakeList (alreadyBackLoop config blockNumber backlist)

/-- handleApplyBackStakeList (source lines 499-510). -/
def handleApplyBackStakeList (config : GenaroConfig) (header : Header)
    (st : StateDB) : StateDB :=
  let blockNumber := header.Number
  let backlist := st.alreadyBackStakeList
  st.setAlreadyBackStakeList (applyBackLoop config blockNumber backlist)

/-- getCoinCofficient (source lines 542-559): the coefficient is `base` when
the previous period paid nothing; otherwise the planned amount is computed by
the written sequence of in-place `big.Int` operations and divided by the
actual amount.  The final `.Uint64()` of the source is the identity on the
nonnegative in-range values this function is applied to, so the value before
that conversion is returned. -/
def getCoinCofficient (config : GenaroConfig) (coinrewards surplusRewards : Int) :
    Int :=
  if coinrewards = 0 then base
  else
    let p1 := surplusRewards * coinRewardsRatio
    let p2 := Int.ediv p1 base
    let p3 := Int.ediv p2 ratioPerYear
    let p4 := p3 * base
    let p5 := Int.ediv p4 (config.Epoch : Int)
    let p6 := p5 * base
    Int.ediv p6 coinrewards

/-- getStorageCoefficient (source lines 561-578): same shape as
getCoinCofficient with the storage ratio. -/
def getStorageCoefficient (config : GenaroConfig) (storagerewards surplusRewards : Int) :
    Int :=
  if storagerewards = 0 then base
  else
    let p1 := surplusRewards * storageRewardsRatio
    let p2 := Int.ediv p1 base
    let p3 := Int.ediv p2 ratioPerYear
    let p4 := p3 * base
    let p5 := Int.ediv p4 (config.Epoch : Int)
    let p6 := p5 * base
    Int.ediv p6 storagerewards

/-- The coefficient exactly as claim C3 words it: `base` when the previous
period paid nothing, and otherwise `(plannedPerEpoch * base) / actualPaid`
with `plannedPerEpoch` derived from the surplus pool the way
accumulateInterestRewards derives the per-block planned reward: the surplus
times `coinRewardsRatio` over `base`, divided by the per-year epoch count,
divided by the epoch length.  This definition follows the claim text, for
comparison with the source function `getCoinCofficient`. -/
def specCoinCoefficient (config : GenaroConfig) (coinrewards surplusRewards : Int) :
    Int :=
  if coinrewards = 0 then base
  else
    let plannedPerEpoch :=
      Int.ediv (Int.ediv (Int.ediv (surplusRewards * coinRewardsRatio) base)
        (epochPerYear : Int)) (config.Epoch : Int)
    Int.ediv (plannedPerEpoch * base) coinrewards

/-- The closed form of what `getCoinCofficient` actually computes, stated in
the claim's shape so the corrected claim can be read off: the planned amount
is derived by dividing by `ratioPerYear` and rescaling by `base`, not by
dividing by the per-year epoch count. -/
def amendedCoinCoefficient (config : GenaroConfig) (coinrewards surplusRewards : Int) :
    Int :=
  if coinrewards = 0 then base
  else
    let planned :=
      Int.ediv (Int.ediv (Int.ediv (surplusRewards * coinRewardsRatio) base)
        ratioPerYear * base) (config.Epoch : Int)
    Int.ediv (planned * base) coinrewards

/-- accumulateInterestRewards (source lines 581-612): pick the surplus
baseline by the year-boundary test, compute the coefficient from the previous
epoch's paid amount, derive the per-block reward, and credit both the block
author and the coin-rewards-paid counter.  The `uint64` results of
`getCoinCofficient` and the committee `proportion` pass through
`big.NewInt(int64(...))`, modelled by `toInt64` for the proportion and by the
in-range identity for the coefficient. -/
def accumulateInterestRewards (config : GenaroConfig) (st : StateDB)
    (header : Header) (proportion : Nat) (blockNumber : Nat) : StateDB :=
  let preCoinRewards := st.getBalance (Pre ++ CoinActualRewardsAddress)
  let preSurplusRewards :=
    if blockNumber % (config.Epoch * epochPerYear) = 0 then
      st.getBalance (Pre ++ SurplusCoinAddress)
    else
      st.getBalance SurplusCoinAddress
  let coefficient := getCoinCofficient config preCoinRewards preSurplusRewards
  let surplusRewards := st.getBalance SurplusCoinAddress
  let p1 := surplusRewards * coinRewardsRatio
  let p2 := Int.ediv p1 base
  let p3 := Int.ediv p2 (epochPerYear : Int)
  let p4 := p3 * coefficient
  let p5 := Int.ediv p4 base
  let p6 := p5 * toInt64 proportion
  let p7 := Int.ediv p6 base
  let blockReward := Int.ediv p7 (config.Epoch : Int)
  let reward := blockReward
  let st1 := st.addBalance header.Coinbase reward
  st1.addBalance CoinActualRewardsAddress reward

/-- accumulateStorageRewards (source lines 615-659): same planned-reward
derivation with the storage ratio and no proportion factor, then the
per-candidate allocation loop.  The heft contributions accumulate in `uint64`
(`total += contributes[i]`).  Inside the loop the source computes
`reward.Mul(blockReward, big.NewInt(int64(contributes[i])))` and then
`reward.Div(blockReward, big.NewInt(int64(total)))`: the second call writes
the receiver with `blockReward / total`, discarding the product of the first,
so every candidate is credited `blockReward / total`. -/
def accumulateStorageRewards (config : GenaroConfig) (st : StateDB)
    (blockNumber : Nat) : StateDB :=
  let preStorageRewards := st.getBalance (Pre ++ StorageActualRewardsAddress)
  let preSurplusRewards :=
    if blockNumber % (config.Epoch * epochPerYear) = 0 then
      st.getBalance (Pre ++ SurplusCoinAddress)
    else
      st.getBalance SurplusCoinAddress
  let coefficient := getStorageCoefficient config preStorageRewards preSurplusRewards
  let surplusRewards := st.getBalance SurplusCoinAddress
  let p1 := surplusRewards * storageRewardsRatio
  let p2 := Int.ediv p1 base
  let p3 := Int.ediv p2 (epochPerYear : Int)
  let p4 := p3 * coefficient
  let p5 := Int.ediv p4 base
  let blockReward := Int.ediv p5 (config.Epoch : Int)
  let cs := st.candidates
  let contributes := cs.map (fun c => st.heftLastDiff c blockNumber)
  let total := contributes.foldl (fun t x => u64 (t + x)) 0
  if total = 0 then st
  else
    cs.foldl
      (fun s c =>
        let reward := Int.ediv blockReward (toInt64 total)
        (s.addBalance c reward).addBalance StorageActualRewardsAddress reward)
      st

/-! ## Theorems -/

/-- C8: at a year boundary, updateEpochYearRewards writes the pre-update
surplus into the previous-year surplus snapshot, leaves the surplus pool at
exactly the old surplus minus the accumulated total actual rewards, and resets
the total-rewards accumulator to zero. -/
theorem updateEpochYearRewards_exact (st : StateDB) :
    (updateEpochYearRewards st).getBalance (Pre ++ SurplusCoinAddress)
        = st.getBalance SurplusCoinAddress
    ∧ (updateEpochYearRewards st).getBalance SurplusCoinAddress
        = st.getBalance SurplusCoinAddress - st.getBalance TotalActualRewardsAddress
    ∧ (updateEpochYearRewards st).getBalance TotalActualRewardsAddress = 0 := by
  refine ⟨?_, ?_, ?_⟩ <;>
    simp [updateEpochYearRewards, StateDB.getBalance, StateDB.setBalance,
      StateDB.subBalance, Pre, SurplusCoinAddress, TotalActualRewardsAddress]

/-- C9: handleAlreadyBackStakeList and handleApplyBackStakeList are
extensionally equal: on every config, header and ledger state they produce the
identical resulting state, pending-withdrawal list included. -/
theorem handleBackStake_equiv (config : GenaroConfig) (header : Header)
    (st : StateDB) :
    handleAlreadyBackStakeList config header st
      = handleApplyBackStakeList config header st := by
  unfold handleAlreadyBackStakeList handleApplyBackStakeList
  have h : ∀ l : List BackStake,
      alreadyBackLoop config header.Number l = applyBackLoop config header.Number l := by
    intro l
    induction l with
    | nil => rfl
    | cons b rest ih => simp only [alreadyBackLoop, applyBackLoop, ih]
  simp only [h]

/-- C10: for a header whose extension payload decodes, ecrecover returns the
header exactly as it received it, on the success path and on the
recovery-failure path alike: the signature cleared before hashing is restored
to its original bytes. -/
theorem ecrecover_frame (env : CryptoEnv) (h : Header) (e : HeaderExtra)
    (hex : h.Extra = some e) : (ecrecover env h).2 = h := by
  obtain ⟨n, t, d, cb, nc, mx, ex⟩ := h
  have hex2 : ex = some e := hex
  subst hex2
  obtain ⟨sig, cr, pr⟩ := e
  rfl

/-- Concrete crypto oracle for the C10 witness. -/
def cryptoW : CryptoEnv :=
  ⟨fun _ => [], fun _ _ => Except.error GErr.errRecoveryFailed, fun _ => ""⟩

/-- Concrete header for the C10 witness. -/
def hdrW10 : Header := ⟨7, 3, 0, "cb", 0, 0, some ⟨[1, 2], ["m"], [5]⟩⟩

/-- C10 witness: the frame theorem applied at a concrete header and oracle. -/
theorem ecrecover_frame_witness :
    hdrW10.Extra = some (⟨[1, 2], ["m"], [5]⟩ : HeaderExtra)
    ∧ (ecrecover cryptoW hdrW10).2 = hdrW10 :=
  ⟨rfl, ecrecover_frame cryptoW hdrW10 ⟨[1, 2], ["m"], [5]⟩ rfl⟩

/-- Config for the C1 failing input: one block per epoch. -/
def cfgC1 : GenaroConfig := ⟨1, 5⟩

/-- Ledger state for the C1 failing input: a surplus of 960000 (chosen so the
per-block storage reward comes out at 10000), no previous-period storage
payments, and two candidates of which only "A" contributed heft. -/
def stC1 : StateDB :=
  ⟨fun a => if a = SurplusCoinAddress then 960000 else 0, [], ["A", "B"],
   fun c _ => if c = "A" then 1 else 0⟩

/-- C1: evaluation of accumulateStorageRewards at the failing input.  The
per-block storage reward is 10000 and the heft contributions are A = 1, B = 0
with total 1, yet candidate B, whose contribution is zero, is credited the
full 10000 — the allocation loop divides `blockReward` by `total` and ignores
the per-candidate contribution, so the payout is not apportioned by heft and
the counter receives `blockReward / total` once per candidate. -/
theorem accumulateStorageRewards_bug :
    stC1.heftLastDiff "B" 1 = 0
    ∧ (accumulateStorageRewards cfgC1 stC1 1).getBalance "B" = 10000
    ∧ (accumulateStorageRewards cfgC1 stC1 1).getBalance "A" = 10000
    ∧ (accumulateStorageRewards cfgC1 stC1 1).getBalance StorageActualRewardsAddress
        = 20000 := by
  refine ⟨rfl, ?_, ?_, ?_⟩ <;> decide

/-- Snapshot used by the Prepare environments below. -/
def snapC2 : CommitteeSnapshot := ⟨[], fun _ => none⟩

/-- Parent header for the C2 counterexample, timestamped 100. -/
def parentC2 : Header := ⟨4, 100, 0, "", 0, 0, none⟩

/-- Prepare environment for the C2 counterexample: the wall clock reads
exactly the parent's timestamp. -/
def envC2 : PrepareEnv := ⟨"S", Except.ok snapC2, some parentC2, 100⟩

/-- Header handed to Prepare in the C2 counterexample. -/
def hdrC2 : Header := ⟨5, 0, 0, "", 0, 0, none⟩

/-- C2 counterexample: with the wall clock equal to the parent timestamp,
Prepare succeeds but leaves the timestamp at the parent's value 100, not at
`max(now, parentTime + 1) = 101`, so the produced timestamp is not strictly
greater than the parent's. -/
theorem Prepare_time_counterexample :
    (Prepare envC2 hdrC2).map Header.Time = Except.ok (100 : Int)
    ∧ parentC2.Time = 100 ∧ envC2.now = 100
    ∧ max envC2.now (parentC2.Time + 1) = 101
    ∧ ¬ ((100 : Int) > 100) :=
  ⟨rfl, rfl, rfl, by decide, by decide⟩

/-- C2 amended: whenever Prepare succeeds, the timestamp of the produced
header is the wall clock when the clock is at or past the parent's timestamp
and `parentTime + 1` otherwise; hence it is always at least the parent's
timestamp, and strictly greater except when the clock reads exactly the
parent's timestamp. -/
theorem Prepare_time_amended (env : PrepareEnv) (header h2 parent : Header)
    (hok : Prepare env header = Except.ok h2) (hp : env.parent = some parent) :
    (parent.Time ≤ env.now → h2.Time = env.now)
    ∧ (env.now < parent.Time → h2.Time = parent.Time + 1)
    ∧ parent.Time ≤ h2.Time
    ∧ (env.now ≠ parent.Time → parent.Time < h2.Time) := by
  unfold Prepare at hok
  rcases hsnap : env.snap with e | snap
  · rw [hsnap] at hok
    exact absurd hok (by simp)
  · rw [hsnap, hp] at hok
    simp only [Except.ok.injEq] at hok
    subst hok
    by_cases hlt : env.now < parent.Time
    · simp only [if_pos hlt]
      refine ⟨fun hle => absurd hlt (by omega), fun _ => trivial, by omega, fun _ => by omega⟩
    · simp only [if_neg hlt]
      refine ⟨fun _ => trivial, fun hc => absurd hc hlt, by omega, fun hne => by omega⟩

/-- Parent header for the C2 witness, timestamped 50. -/
def parentW2 : Header := ⟨4, 50, 0, "", 0, 0, none⟩

/-- Prepare environment for the C2 witness: wall clock past the parent. -/
def envW2 : PrepareEnv := ⟨"S", Except.ok snapC2, some parentW2, 60⟩

/-- Header handed to Prepare in the C2 witness. -/
def hdrW2 : Header := ⟨5, 0, 0, "", 0, 0, none⟩

/-- The header Prepare produces in the C2 witness. -/
def resW2 : Header := ⟨5, 60, 0, "S", 0, 0, none⟩

/-- C2 witness: the amended theorem applied at a concrete succeeding run. -/
theorem Prepare_time_amended_witness :
    Prepare envW2 hdrW2 = Except.ok resW2
    ∧ (parentW2.Time ≤ envW2.now → resW2.Time = envW2.now)
    ∧ parentW2.Time ≤ resW2.Time
    ∧ (envW2.now ≠ parentW2.Time → parentW2.Time < resW2.Time) :=
  ⟨rfl, (Prepare_time_amended envW2 hdrW2 resW2 parentW2 rfl rfl).1,
   (Prepare_time_amended envW2 hdrW2 resW2 parentW2 rfl rfl).2.2.1,
   (Prepare_time_amended envW2 hdrW2 resW2 parentW2 rfl rfl).2.2.2⟩

/-- Config for the C3 counterexample: one block per epoch. -/
def cfgC3 : GenaroConfig := ⟨1, 5⟩

/-- C3 counterexample: at surplus 8400 and previous actual payment 1, the
source coefficient divides the planned pool share by `ratioPerYear = 700` and
rescales by `base`, yielding 100000000, while the claim's derivation (dividing
by the per-year epoch count 12 as accumulateInterestRewards does) yields
870000 — the two disagree, so getCoinCofficient does not compute the claimed
expression. -/
theorem getCoinCofficient_counterexample :
    getCoinCofficient cfgC3 1 8400 = 100000000
    ∧ specCoinCoefficient cfgC3 1 8400 = 870000
    ∧ getCoinCofficient cfgC3 1 8400 ≠ specCoinCoefficient cfgC3 1 8400 := by
  refine ⟨?_, ?_, ?_⟩ <;> decide

/-- C3 amended: the coefficient is `base` when the previous period paid
nothing, and otherwise `(planned * base) / actualPaid` where the planned
amount is the surplus times `coinRewardsRatio` over `base`, divided by
`ratioPerYear` and rescaled by `base`, then divided by the epoch length — not
the `epochPerYear` division used by accumulateInterestRewards. -/
theorem getCoinCofficient_amended (config : GenaroConfig)
    (coinrewards surplusRewards : Int) :
    getCoinCofficient config coinrewards surplusRewards
      = amendedCoinCoefficient config coinrewards surplusRewards := by
  unfold getCoinCofficient amendedCoinCoefficient
  rfl

/-- C4 counterexample: a single candidate of stake zero has total stake zero,
yet Rank returns one-element lists (the zero-valued slices it allocated), not
empty ones. -/
theorem Rank_zeroTotal_counterexample :
    rankTotal [(⟨"A", 0⟩ : CandidateInfo)] = 0
    ∧ (Rank [(⟨"A", 0⟩ : CandidateInfo)]).1 ≠ []
    ∧ (Rank [(⟨"A", 0⟩ : CandidateInfo)]).2 ≠ []
    ∧ (Rank [(⟨"A", 0⟩ : CandidateInfo)]).1.length = 1 := by
  refine ⟨rfl, ?_, ?_, rfl⟩ <;> decide

/-- C4 amended: when the accumulated total stake is zero, Rank performs no
division and returns the zero-initialized slices: lists of exactly the input's
length whose entries are the zero address and the zero proportion. -/
theorem Rank_zeroTotal_amended (cs : List CandidateInfo) (h : rankTotal cs = 0) :
    Rank cs = (cs.map fun _ => "", cs.map fun _ => 0)
    ∧ (Rank cs).1.length = cs.length ∧ (Rank cs).2.length = cs.length := by
  refine ⟨?_, ?_, ?_⟩ <;> simp [Rank, h]

/-- C4 witness: the amended theorem applied at the one-candidate zero-stake
input. -/
theorem Rank_zeroTotal_amended_witness :
    rankTotal [(⟨"A", 0⟩ : CandidateInfo)] = 0
    ∧ Rank [(⟨"A", 0⟩ : CandidateInfo)] = ([""], [0]) :=
  ⟨by decide, by simpa using (Rank_zeroTotal_amended [⟨"A", 0⟩] (by decide)).1⟩

/-- Support lemma: difficulty of a committee member is the committee size
minus the member's rank index. -/
theorem calcDifficulty_eq_of_mem (snap : CommitteeSnapshot) (addr : Address)
    (n : Nat) (h : addr ∈ snap.CommitteeRank) :
    CalcDifficulty snap addr n
      = snap.CommitteeSize - snap.CommitteeRank.indexOf addr := by
  unfold CalcDifficulty CommitteeSnapshot.getCurrentRankIndex
  rw [if_pos h]
  rw [if_neg (by omega : ¬ ((snap.CommitteeRank.indexOf addr : Int) < 0))]
  simp

/-- Support lemma: difficulty of a non-member is zero. -/
theorem calcDifficulty_eq_zero_of_not_mem (snap : CommitteeSnapshot)
    (addr : Address) (n : Nat) (h : addr ∉ snap.CommitteeRank) :
    CalcDifficulty snap addr n = 0 := by
  unfold CalcDifficulty CommitteeSnapshot.getCurrentRankIndex
  rw [if_neg h]
  norm_num

/-- C5: CalcDifficulty returns 0 for an address outside the snapshot's rank
list and `CommitteeSize - rankIndex` for a member; consequently difficulty is
monotonically non-increasing in rank index across a fixed snapshot, and a
rank-0 member has difficulty at least that of any other address. -/
theorem CalcDifficulty_spec (snap : CommitteeSnapshot) (addr a b : Address)
    (n m k : Nat) :
    (addr ∉ snap.CommitteeRank → CalcDifficulty snap addr n = 0)
    ∧ (addr ∈ snap.CommitteeRank →
        CalcDifficulty snap addr n
          = snap.CommitteeSize - snap.CommitteeRank.indexOf addr)
    ∧ (a ∈ snap.CommitteeRank → b ∈ snap.CommitteeRank →
        snap.CommitteeRank.indexOf a ≤ snap.CommitteeRank.indexOf b →
        CalcDifficulty snap b m ≤ CalcDifficulty snap a m)
    ∧ (a ∈ snap.CommitteeRank → snap.CommitteeRank.indexOf a = 0 →
        CalcDifficulty snap b k ≤ CalcDifficulty snap a k) := by
  refine ⟨calcDifficulty_eq_zero_of_not_mem snap addr n,
    calcDifficulty_eq_of_mem snap addr n, ?_, ?_⟩
  · intro ha hb hle
    rw [calcDifficulty_eq_of_mem snap a m ha, calcDifficulty_eq_of_mem snap b m hb]
    exact Nat.sub_le_sub_left hle _
  · intro ha h0
    by_cases hb : b ∈ snap.CommitteeRank
    · rw [calcDifficulty_eq_of_mem snap a k ha, calcDifficulty_eq_of_mem snap b k hb, h0]
      exact Nat.sub_le_sub_left (Nat.zero_le _) _
    · rw [calcDifficulty_eq_zero_of_not_mem snap b k hb]
      exact Nat.zero_le _

/-- Snapshot used by the C5 witness, three members ranked A, B, C. -/
def snapW5 : CommitteeSnapshot := ⟨["A", "B", "C"], fun _ => none⟩

/-- C5 witness: the difficulty theorem applied at a concrete snapshot — a
non-member gets difficulty 0, member B gets `size - rankIndex`, and difficulty
does not increase down the rank list. -/
theorem CalcDifficulty_spec_witness :
    CalcDifficulty snapW5 "Z" 9 = 0
    ∧ CalcDifficulty snapW5 "B" 9
        = snapW5.CommitteeSize - snapW5.CommitteeRank.indexOf "B"
    ∧ CalcDifficulty snapW5 "C" 9 ≤ CalcDifficulty snapW5 "B" 9
    ∧ CalcDifficulty snapW5 "B" 9 ≤ CalcDifficulty snapW5 "A" 9 :=
  ⟨(CalcDifficulty_spec snapW5 "Z" "A" "B" 9 9 9).1 (by decide),
   (CalcDifficulty_spec snapW5 "B" "A" "B" 9 9 9).2.1 (by decide),
   (CalcDifficulty_spec snapW5 "X" "B" "C" 9 9 9).2.2.1 (by decide) (by decide)
     (by decide),
   (CalcDifficulty_spec snapW5 "X" "A" "B" 9 9 9).2.2.2 (by decide) (by decide)⟩

/-- The mathematical (unwrapped) total stake of a candidate set. -/
def mathTotal (cs : List CandidateInfo) : Nat := (cs.map CandidateInfo.Stake).sum

/-- Support lemma: while the running total stays below `2 ^ 64`, the wrapping
accumulation of `Rank` agrees with the plain sum. -/
theorem rankTotal_foldl_eq (cs : List CandidateInfo) :
    ∀ acc : Nat, acc + mathTotal cs < 2 ^ 64 →
      cs.foldl (fun t c => u64 (t + c.Stake)) acc = acc + mathTotal cs := by
  induction cs with
  | nil =>
    intro acc _
    simp [mathTotal]
  | cons c rest ih =>
    intro acc h
    have hm : mathTotal (c :: rest) = c.Stake + mathTotal rest := by
      simp [mathTotal]
    rw [hm] at h
    simp only [List.foldl_cons]
    rw [show u64 (acc + c.Stake) = acc + c.Stake from Nat.mod_eq_of_lt (by omega)]
    rw [ih (acc + c.Stake) (by omega), hm]
    omega

/-- Support lemma: summing truncated quotients never exceeds the quotient of
the sum. -/
theorem sum_div_le (l : List Nat) (d : Nat) :
    (l.map (fun x => x / d)).sum ≤ l.sum / d := by
  induction l with
  | nil => simp
  | cons a rest ih =>
    simp only [List.map_cons, List.sum_cons]
    calc a / d + (rest.map (fun x => x / d)).sum
        ≤ a / d + rest.sum / d := Nat.add_le_add_left ih _
      _ ≤ (a + rest.sum) / d := Nat.add_div_le_add_div a rest.sum d

/-- Candidate set exhibiting `uint64` wrap-around in Rank: stakes sum to
`2 ^ 64 + 3`, so the accumulated total wraps to 3, and the first stake times
`base` wraps as well. -/
def csC6 : List CandidateInfo :=
  [⟨"A", 18445744073709551619⟩, ⟨"B", 1000000000000000⟩]

/-- C6 counterexample: on `csC6` (total stake positive under either the
wrapped or the mathematical reading) the proportions produced by Rank sum to
far more than 10000, because `total` wraps to 3 and each quotient
`blockRewardless stake * base / total` explodes. -/
theorem Rank_proportions_counterexample :
    rankTotal csC6 = 3
    ∧ (Rank csC6).2 = [2815581357903193872, 3333333333333333333]
    ∧ ¬ ((Rank csC6).2.sum ≤ 10000) := by
  refine ⟨?_, ?_, ?_⟩ <;> decide

/-- C6 amended: for a candidate set whose accumulated total stake is nonzero,
Rank returns lists of exactly the input's length (hence at most it), and each
proportion is `(stake_i * 10000 mod 2 ^ 64) / total` with `total` the
`uint64`-accumulated stake sum.  When no `uint64` overflow occurs — the
mathematical total stake times 10000 stays below `2 ^ 64` — each proportion is
exactly `stake_i * 10000 / totalStake` and the proportions sum to at most
10000; the counterexample shows the sum bound fails under overflow. -/
theorem Rank_amended (cs : List CandidateInfo) (hpos : rankTotal cs ≠ 0) :
    (Rank cs).1.length = cs.length
    ∧ (Rank cs).2.length = cs.length
    ∧ (Rank cs).2 = cs.map (fun c => u64 (c.Stake * base.toNat) / rankTotal cs)
    ∧ (mathTotal cs * base.toNat < 2 ^ 64 →
        (Rank cs).2 = cs.map (fun c => c.Stake * base.toNat / mathTotal cs)
        ∧ (Rank cs).2.sum ≤ base.toNat) := by
  have hR : Rank cs = (cs.map (fun c => c.Signer),
      cs.map (fun c => u64 (c.Stake * base.toNat) / rankTotal cs)) := by
    unfold Rank
    rw [if_neg hpos]
  refine ⟨by rw [hR]; simp, by rw [hR]; simp, by rw [hR], ?_⟩
  intro hov
  have hbase : base.toNat = 10000 := rfl
  have hmt : mathTotal cs < 2 ^ 64 := by
    have h1 : mathTotal cs * 1 ≤ mathTotal cs * base.toNat :=
      Nat.mul_le_mul_left _ (by omega)
    omega
  have htot : rankTotal cs = mathTotal cs := by
    have h2 := rankTotal_foldl_eq cs 0 (by omega)
    simpa [rankTotal] using h2
  have hmz : mathTotal cs ≠ 0 := by
    rw [htot] at hpos
    exact hpos
  have hstake : ∀ c ∈ cs, u64 (c.Stake * base.toNat) = c.Stake * base.toNat := by
    intro c hc
    apply Nat.mod_eq_of_lt
    have h1 : c.Stake ≤ mathTotal cs :=
      List.single_le_sum (fun x _ => Nat.zero_le x) _
        (List.mem_map_of_mem CandidateInfo.Stake hc)
    calc c.Stake * base.toNat ≤ mathTotal cs * base.toNat :=
          Nat.mul_le_mul_right _ h1
      _ < 2 ^ 64 := hov
  have hprop : (Rank cs).2 = cs.map (fun c => c.Stake * base.toNat / mathTotal cs) := by
    rw [hR]
    refine List.map_congr_left ?_
    intro c hc
    rw [hstake c hc, htot]
  refine ⟨hprop, ?_⟩
  rw [hprop]
  have hsplit : cs.map (fun c => c.Stake * base.toNat / mathTotal cs)
      = (cs.map (fun c => c.Stake * base.toNat)).map (fun x => x / mathTotal cs) := by
    rw [List.map_map]
    rfl
  rw [hsplit]
  have hmul : (cs.map (fun c => c.Stake * base.toNat)).sum
      = mathTotal cs * base.toNat := by
    have h3 := List.sum_map_mul_right cs CandidateInfo.Stake base.toNat
    simpa [mathTotal] using h3
  calc ((cs.map (fun c => c.Stake * base.toNat)).map (fun x => x / mathTotal cs)).sum
      ≤ (cs.map (fun c => c.Stake * base.toNat)).sum / mathTotal cs :=
        sum_div_le _ _
    _ = mathTotal cs * base.toNat / mathTotal cs := by rw [hmul]
    _ = base.toNat := Nat.mul_div_cancel_left _ (Nat.pos_of_ne_zero hmz)

/-- Candidate set for the C6 witness: the spec's scenario A stakes 60, 30,
10. -/
def csW6 : List CandidateInfo := [⟨"A", 60⟩, ⟨"B", 30⟩, ⟨"C", 10⟩]

/-- C6 witness: the amended theorem at stakes 60/30/10 — no overflow, so the
proportions are the exact stake shares and sum to at most 10000. -/
theorem Rank_amended_witness :
    rankTotal csW6 ≠ 0 ∧ mathTotal csW6 * base.toNat < 2 ^ 64
    ∧ (Rank csW6).2 = csW6.map (fun c => c.Stake * base.toNat / mathTotal csW6)
    ∧ (Rank csW6).2.sum ≤ base.toNat :=
  ⟨by decide, by decide,
   ((Rank_amended csW6 (by decide)).2.2.2 (by decide)).1,
   ((Rank_amended csW6 (by decide)).2.2.2 (by decide)).2⟩

/-- Config used by the C7 theorems. -/
def cfgC7 : GenaroConfig := ⟨5000, 5⟩

/-- Verification environment used by the C7 theorems. -/
def envC7 : VerifyEnv := ⟨1000, Except.ok snapC2, none, cryptoW, fun _ _ _ => false⟩

/-- Genesis header with an empty embedded committee list: its number 0 is
divisible by the epoch length. -/
def hdrC7 : Header := ⟨0, 10, 0, "", 0, 0, some ⟨[1], [], []⟩⟩

/-- C7 counterexample: an epoch-boundary header (number 0 is divisible by the
epoch length) with an empty embedded committee list fails VerifySeal with
`unknown block`, not with `InvalidEpochBlock` — the genesis check precedes the
committee-list check. -/
theorem VerifySeal_epoch_counterexample :
    hdrC7.Number % cfgC7.Epoch = 0
    ∧ hdrC7.Extra = some (⟨[1], [], []⟩ : HeaderExtra)
    ∧ (⟨[1], [], []⟩ : HeaderExtra).CommitteeRank.length = 0
    ∧ VerifySeal cfgC7 envC7 hdrC7 = Except.error GErr.errUnknownBlock
    ∧ ¬ (VerifySeal cfgC7 envC7 hdrC7 = Except.error GErr.errInvalidEpochBlock) := by
  refine ⟨rfl, rfl, rfl, rfl, ?_⟩
  intro h
  rw [show VerifySeal cfgC7 envC7 hdrC7 = Except.error GErr.errUnknownBlock from rfl]
    at h
  exact absurd (Except.error.inj h) (by decide)

/-- C7 amended: for an epoch-boundary header of nonzero number whose timestamp
is not in the future of the local clock, VerifySeal returns
`InvalidEpochBlock` whenever the decoded committee list is empty or larger
than `CommitteeMaxSize`. -/
theorem VerifySeal_epoch_amended (config : GenaroConfig) (env : VerifyEnv)
    (header : Header) (ex : HeaderExtra)
    (h0 : header.Number ≠ 0) (hfut : header.Time ≤ env.now)
    (hep : header.Number % config.Epoch = 0) (hex : header.Extra = some ex)
    (hbad : ex.CommitteeRank.length = 0
      ∨ ex.CommitteeRank.length > config.CommitteeMaxSize) :
    VerifySeal config env header = Except.error GErr.errInvalidEpochBlock := by
  simp only [VerifySeal, epochPointCheck, hex, if_neg h0,
    if_neg (not_lt.mpr hfut), if_pos hep, if_pos hbad]

/-- Epoch-boundary header for the C7 witness: number 5000, empty committee
list. -/
def hdrW7 : Header := ⟨5000, 10, 0, "", 0, 0, some ⟨[1], [], []⟩⟩

/-- C7 witness: the amended theorem at block 5000 with an empty committee
list. -/
theorem VerifySeal_epoch_amended_witness :
    hdrW7.Number ≠ 0 ∧ hdrW7.Time ≤ envC7.now ∧ hdrW7.Number % cfgC7.Epoch = 0
    ∧ VerifySeal cfgC7 envC7 hdrW7 = Except.error GErr.errInvalidEpochBlock :=
  ⟨by decide, by decide, by decide,
   VerifySeal_epoch_amended cfgC7 envC7 hdrW7 ⟨[1], [], []⟩ (by decide) (by decide)
     (by decide) rfl (Or.inl rfl)⟩
